import Mathlib

/-!
Verification development for the SOL liquidation-scoring system (`src/bot.py`).

The pure core of the program is embedded shallowly:
* Python floats are modelled as rationals (`ℚ`), scores as `Int`.
* A `deque(maxlen=c)` is modelled as a `List` together with `dequePush`,
  which appends on the right and evicts from the left when the capacity
  would be exceeded.
* The global mutable triple `(liquidation_log, liq_buy_amounts,
  liq_sell_amounts)` becomes the explicit state `LiqState`.
* Printing / colours are dropped; each appended signal is modelled by its
  score delta together with the static lead of its message text.
-/

/-- Configuration constant `FUNDING_BEAR_THRESHOLD = -0.0005` from bot.py. -/
def fundingBear : ℚ := -5/10000

/-- Configuration constant `FUNDING_BULL_THRESHOLD = 0.0005` from bot.py. -/
def fundingBull : ℚ := 5/10000

/-- Configuration constant `LS_RATIO_SHORT_HEAVY = 0.90` from bot.py. -/
def lsShortHeavy : ℚ := 90/100

/-- Configuration constant `LS_RATIO_LONG_HEAVY = 1.10` from bot.py. -/
def lsLongHeavy : ℚ := 110/100

/-- Configuration constant `ORDER_BOOK_THIN_THRESHOLD = 5000` from bot.py. -/
def bookThin : ℚ := 5000

/-- Configuration constant `VOLUME_LOW_RATIO = 0.50` from bot.py. -/
def volLow : ℚ := 1/2

/-- Configuration constant `VOLUME_SPIKE_RATIO = 2.00` from bot.py. -/
def volHigh : ℚ := 2

/-- Configuration constant `LIQUIDATION_WINDOW_SEC = 60` from bot.py. -/
def liqWindow : ℚ := 60

/-- Configuration constant `LIQUIDATION_SPIKE_MULT = 2.0` from bot.py. -/
def spikeMult : ℚ := 2

/-- Configuration constant `MIN_BUY_SCORE = 6` from bot.py. -/
def minBuyScore : Int := 6

/-- Configuration constant `MIN_SELL_SCORE = -6` from bot.py. -/
def minSellScore : Int := -6

/-- One decoded liquidation event, as built in `on_liquidation_message`:
`{"time": now, "side": side, "qty": qty, "price": price, "usd_val": qty*price}`. -/
structure LiqEvent where
  time : ℚ
  side : String
  qty : ℚ
  price : ℚ
  usdVal : ℚ
  deriving Repr, DecidableEq

/-- The shared mutable state of bot.py: `liquidation_log` (deque maxlen 500),
`liq_buy_amounts` and `liq_sell_amounts` (deques maxlen 200 of
`(timestamp, usd_value)` pairs). -/
structure LiqState where
  log : List LiqEvent
  buys : List (ℚ × ℚ)
  sells : List (ℚ × ℚ)
  deriving Repr, DecidableEq

/-- `append` on a Python `deque(maxlen=cap)`: append on the right, and drop
from the left whatever exceeds the capacity. -/
def dequePush (cap : Nat) (q : List α) (x : α) : List α :=
  let q2 := q ++ [x]
  if q2.length ≤ cap then q2 else q2.drop (q2.length - cap)

/-- The decoded order dict of a feed message (`data.get("o", {})`): each of
the fields `S`, `q`, `p` may be absent. -/
structure FeedOrder where
  S : Option String
  q : Option ℚ
  p : Option ℚ
  deriving Repr, DecidableEq

/-- The event construction in `on_liquidation_message`: a missing side decodes
to `""` (`order.get("S", "")`), missing quantity/price to `0`. -/
def decodeEvent (now : ℚ) (o : FeedOrder) : LiqEvent :=
  let qty := o.q.getD 0
  let price := o.p.getD 0
  { time := now, side := o.S.getD "", qty := qty, price := price,
    usdVal := qty * price }

/-- The state update of `on_liquidation_message` (bot.py lines 208-213): the
event always goes to `liquidation_log`; a `"BUY"` side goes to
`liq_buy_amounts`, any other side to `liq_sell_amounts`. -/
def ingest (st : LiqState) (now : ℚ) (o : FeedOrder) : LiqState :=
  let ev := decodeEvent now o
  { log := dequePush 500 st.log ev,
    buys := if ev.side = "BUY" then dequePush 200 st.buys (ev.time, ev.usdVal)
            else st.buys,
    sells := if ev.side = "BUY" then st.sells
             else dequePush 200 st.sells (ev.time, ev.usdVal) }

/-- The window query `[(t, v) for t, v in amounts if t > cutoff]` used in
`get_liquidation_summary` (bot.py lines 294-295): the stored pairs whose
timestamp is strictly greater than the cutoff. -/
def recentSince (amounts : List (ℚ × ℚ)) (cutoff : ℚ) : List (ℚ × ℚ) :=
  amounts.filter (fun tv => decide (cutoff < tv.1))

/-- The value-only window query `[v for t, v in amounts if t > cutoff]` used in
`check_liquidation_spike` and in the baseline part of
`get_liquidation_summary`. -/
def windowValues (amounts : List (ℚ × ℚ)) (cutoff : ℚ) : List ℚ :=
  (amounts.filter (fun tv => decide (cutoff < tv.1))).map Prod.snd

/-- `np.mean` on a nonempty list of rationals: sum divided by length. -/
def listMean (l : List ℚ) : ℚ := l.sum / (l.length : ℚ)

/-- `check_liquidation_spike` (bot.py lines 230-248), for one direction whose
deque contents are `amounts` (the just-inserted event is the last entry).
Returns whether the spike alert is printed: the window must hold more than 3
entries, the mean of the window minus its last entry must be positive, and the
event value must strictly exceed that mean times `LIQUIDATION_SPIKE_MULT`. -/
def checkLiquidationSpike (amounts : List (ℚ × ℚ)) (now usdVal : ℚ) : Bool :=
  let cutoff := now - liqWindow
  let recent := windowValues amounts cutoff
  if 3 < recent.length then
    let avg := listMean recent.dropLast
    decide (0 < avg) && decide (avg * spikeMult < usdVal)
  else false

/-- The record returned by `get_liquidation_summary`. -/
structure LiqSummary where
  buyTotal : ℚ
  sellTotal : ℚ
  buyCount : Nat
  sellCount : Nat
  buySpike : Bool
  sellSpike : Bool
  avgBuy : ℚ
  avgSell : ℚ
  deriving Repr, DecidableEq

/-- `get_liquidation_summary` (bot.py lines 290-323) as a pure function of the
state and the current time: recent window = entries with `t > now - 60`;
baseline = entries with `t > now - 600`, summed and divided by 10 (sentinel `1`
when that window is empty); a direction spikes when its recent total strictly
exceeds its baseline average times `LIQUIDATION_SPIKE_MULT`. -/
def getLiquidationSummary (st : LiqState) (now : ℚ) : LiqSummary :=
  let cutoff := now - liqWindow
  let buyRecent := recentSince st.buys cutoff
  let sellRecent := recentSince st.sells cutoff
  let buyTotal := (buyRecent.map Prod.snd).sum
  let sellTotal := (sellRecent.map Prod.snd).sum
  let olderCutoff := now - liqWindow * 10
  let allBuy := windowValues st.buys olderCutoff
  let allSell := windowValues st.sells olderCutoff
  let avgBuy := if allBuy.isEmpty then 1 else allBuy.sum / 10
  let avgSell := if allSell.isEmpty then 1 else allSell.sum / 10
  { buyTotal := buyTotal, sellTotal := sellTotal,
    buyCount := buyRecent.length, sellCount := sellRecent.length,
    buySpike := decide (avgBuy * spikeMult < buyTotal),
    sellSpike := decide (avgSell * spikeMult < sellTotal),
    avgBuy := avgBuy, avgSell := avgSell }

/-- The externally polled point-in-time metrics consumed by `run_analysis`. -/
structure Metrics where
  funding : ℚ
  lsRat : ℚ
  oiChangePct : ℚ
  avgBookLiq : ℚ
  volRat : ℚ
  rsi : ℚ
  priceChg1h : ℚ
  deriving Repr, DecidableEq

/-- One appended entry of the `signals` list in `run_analysis`: its score delta
and the static lead of its message (colour and formatted data dropped). -/
structure ScoreSignal where
  delta : Int
  note : String
  deriving Repr, DecidableEq

/-- Factor 1 of `run_analysis` (funding rate): the signals it appends. -/
def fundingSignals (funding : ℚ) : List ScoreSignal :=
  if funding < fundingBear then [⟨2, "Funding NEGATIVE"⟩]
  else if fundingBull < funding then [⟨-2, "Funding POSITIVE"⟩]
  else [⟨0, "Funding NEUTRAL"⟩]

/-- Factor 2 of `run_analysis` (long/short ratio): the signals it appends. -/
def lsSignals (lsRat : ℚ) : List ScoreSignal :=
  if lsRat < lsShortHeavy then [⟨2, "more shorts than longs"⟩]
  else if lsLongHeavy < lsRat then [⟨-2, "more longs than shorts"⟩]
  else [⟨0, "balanced"⟩]

/-- Factor 3 of `run_analysis` (open-interest change): the signals it appends. -/
def oiSignals (oiChangePct : ℚ) : List ScoreSignal :=
  if oiChangePct < -3 then [⟨1, "OI dropping"⟩]
  else if 3 < oiChangePct then [⟨-1, "OI rising"⟩]
  else [⟨0, "OI stable"⟩]

/-- Factor 4 of `run_analysis` (order-book liquidity): the signals it appends. -/
def bookSignals (avgBookLiq : ℚ) : List ScoreSignal :=
  if avgBookLiq < bookThin then [⟨1, "Order book THIN"⟩]
  else [⟨0, "Order book normal"⟩]

/-- Factor 5 of `run_analysis` (volume, bot.py lines 396-402): the signals it
appends. Note there is no `else` branch in the source: a volume ratio in the
middle band appends nothing. -/
def volumeSignals (volRat : ℚ) : List ScoreSignal :=
  if volRat < volLow then [⟨1, "Volume LOW"⟩]
  else if volHigh < volRat then [⟨1, "Volume SPIKE"⟩]
  else []

/-- Factor 6 of `run_analysis` (RSI): the signals it appends, branches checked
in the source order. -/
def rsiSignals (rsi : ℚ) : List ScoreSignal :=
  if rsi < 30 then [⟨2, "RSI OVERSOLD"⟩]
  else if 70 < rsi then [⟨-2, "RSI OVERBOUGHT"⟩]
  else if rsi < 45 then [⟨1, "RSI weak"⟩]
  else if 55 < rsi then [⟨-1, "RSI strong"⟩]
  else [⟨0, "RSI neutral"⟩]

/-- Factor 7 of `run_analysis` (1h price change): the signals it appends. -/
def priceSignals (priceChg1h : ℚ) : List ScoreSignal :=
  if priceChg1h < -3 then [⟨1, "Price down"⟩]
  else if 3 < priceChg1h then [⟨-1, "Price up"⟩]
  else [⟨0, "Price stable"⟩]

/-- Factor 8 of `run_analysis` (short-side liquidations, bot.py lines 431-439):
the signals it appends. No `else` branch in the source: with no spike and zero
total it appends nothing. -/
def liqBuySignals (s : LiqSummary) : List ScoreSignal :=
  if s.buySpike then [⟨2, "SHORT LIQ SPIKE"⟩]
  else if 0 < s.buyTotal then [⟨1, "Short liquidations active"⟩]
  else []

/-- Factor 9 of `run_analysis` (long-side liquidations, bot.py lines 441-449):
the signals it appends. No `else` branch in the source: with no spike and zero
total it appends nothing. -/
def liqSellSignals (s : LiqSummary) : List ScoreSignal :=
  if s.sellSpike then [⟨-2, "LONG LIQ SPIKE"⟩]
  else if 0 < s.sellTotal then [⟨-1, "Long liquidations active"⟩]
  else []

/-- The full `signals` list built by one run of the scoring section of
`run_analysis` (bot.py lines 356-449), the nine factors in source order. -/
def signalsList (m : Metrics) (s : LiqSummary) : List ScoreSignal :=
  fundingSignals m.funding ++ lsSignals m.lsRat ++ oiSignals m.oiChangePct ++
  bookSignals m.avgBookLiq ++ volumeSignals m.volRat ++ rsiSignals m.rsi ++
  priceSignals m.priceChg1h ++ liqBuySignals s ++ liqSellSignals s

/-- The total `score` accumulated by `run_analysis`: every branch that appends
a signal adds that signal's delta to `score`, so the total is the sum of the
appended deltas. -/
def runScore (m : Metrics) (s : LiqSummary) : Int :=
  ((signalsList m s).map ScoreSignal.delta).sum

/-- The score contribution of factor 1 (funding rate). -/
def fundingDelta (funding : ℚ) : Int :=
  if funding < fundingBear then 2 else if fundingBull < funding then -2 else 0

/-- The score contribution of factor 2 (long/short ratio). -/
def lsDelta (lsRat : ℚ) : Int :=
  if lsRat < lsShortHeavy then 2 else if lsLongHeavy < lsRat then -2 else 0

/-- The score contribution of factor 3 (open-interest change). -/
def oiDelta (oiChangePct : ℚ) : Int :=
  if oiChangePct < -3 then 1 else if 3 < oiChangePct then -1 else 0

/-- The score contribution of factor 4 (order-book liquidity). -/
def bookDelta (avgBookLiq : ℚ) : Int :=
  if avgBookLiq < bookThin then 1 else 0

/-- The score contribution of factor 5 (volume). -/
def volumeDelta (volRat : ℚ) : Int :=
  if volRat < volLow then 1 else if volHigh < volRat then 1 else 0

/-- The score contribution of factor 6 (RSI). -/
def rsiDelta (rsi : ℚ) : Int :=
  if rsi < 30 then 2 else if 70 < rsi then -2
  else if rsi < 45 then 1 else if 55 < rsi then -1 else 0

/-- The score contribution of factor 7 (1h price change). -/
def priceDelta (priceChg1h : ℚ) : Int :=
  if priceChg1h < -3 then 1 else if 3 < priceChg1h then -1 else 0

/-- The score contribution of factor 8 (short-side liquidations). -/
def liqBuyDelta (s : LiqSummary) : Int :=
  if s.buySpike then 2 else if 0 < s.buyTotal then 1 else 0

/-- The score contribution of factor 9 (long-side liquidations). -/
def liqSellDelta (s : LiqSummary) : Int :=
  if s.sellSpike then -2 else if 0 < s.sellTotal then -1 else 0

/-- The per-factor score contributions of one scoring evaluation, the nine
factors in source order. -/
def factorDeltas (m : Metrics) (s : LiqSummary) : List Int :=
  [fundingDelta m.funding, lsDelta m.lsRat, oiDelta m.oiChangePct,
   bookDelta m.avgBookLiq, volumeDelta m.volRat, rsiDelta m.rsi,
   priceDelta m.priceChg1h, liqBuyDelta s, liqSellDelta s]

/-- The decision classification at the end of `run_analysis`
(bot.py lines 483-504). -/
inductive Decision where
  | buy
  | sell
  | weakBuy
  | weakSell
  | neutral
  deriving Repr, DecidableEq

/-- The decision ladder of `run_analysis`: `score >= MIN_BUY_SCORE` → BUY,
`elif score <= MIN_SELL_SCORE` → SELL, `elif score >= 3` → WEAK BUY,
`elif score <= -3` → WEAK SELL, else NEUTRAL. -/
def decisionOf (score : Int) : Decision :=
  if minBuyScore ≤ score then .buy
  else if score ≤ minSellScore then .sell
  else if 3 ≤ score then .weakBuy
  else if score ≤ -3 then .weakSell
  else .neutral

/-! ### Helper lemmas -/

/-- Appending the just-inserted event to a direction's deque appends its value
to the trailing window when the event's timestamp lies inside the window. -/
theorem windowValues_append_event (past : List (ℚ × ℚ)) (cutoff t v : ℚ)
    (h : cutoff < t) :
    windowValues (past ++ [(t, v)]) cutoff = windowValues past cutoff ++ [v] := by
  simp [windowValues, List.filter_append, h]

/-! ### Claims -/

/-- Claim C3: on funding −0.0008, long/short ratio 0.85, OI change −4%, depth
3000, volume ratio 0.4, momentum 25, price change −4%, short-side total 50000
with spike flag set and long-side total 0, the scoring engine yields the
per-factor deltas [+2,+2,+1,+1,+1,+2,+1,+2,0], total score 12, and the
strong-buy decision (since the buy threshold 6 is at most 12). -/
theorem c3_scenario_one :
    factorDeltas ⟨-8/10000, 85/100, -4, 3000, 4/10, 25, -4⟩
        ⟨50000, 0, 5, 0, true, false, 10000, 1⟩ = [2, 2, 1, 1, 1, 2, 1, 2, 0] ∧
    runScore ⟨-8/10000, 85/100, -4, 3000, 4/10, 25, -4⟩
        ⟨50000, 0, 5, 0, true, false, 10000, 1⟩ = 12 ∧
    decisionOf (runScore ⟨-8/10000, 85/100, -4, 3000, 4/10, 25, -4⟩
        ⟨50000, 0, 5, 0, true, false, 10000, 1⟩) = Decision.buy ∧
    minBuyScore ≤ 12 := by
  refine ⟨?_, ?_, ?_, ?_⟩ <;>
    norm_num [factorDeltas, fundingDelta, lsDelta, oiDelta, bookDelta, volumeDelta,
      rsiDelta, priceDelta, liqBuyDelta, liqSellDelta, runScore, signalsList,
      fundingSignals, lsSignals, oiSignals, bookSignals, volumeSignals, rsiSignals,
      priceSignals, liqBuySignals, liqSellSignals, decisionOf, minBuyScore, minSellScore,
      fundingBear, fundingBull, lsShortHeavy, lsLongHeavy, bookThin, volLow, volHigh]

/-- Claim C8: the window query returns exactly the ordered subsequence of
stored pairs with timestamp strictly greater than the cutoff (a sublist whose
multiplicities agree with the stored ones on exactly the late-enough pairs);
a cutoff at or after every stored timestamp yields the empty sequence, and a
cutoff before every stored timestamp yields the full retained history. -/
theorem c8_recentSince_exact (amounts : List (ℚ × ℚ)) (cutoff : ℚ) :
    (recentSince amounts cutoff).Sublist amounts ∧
    (∀ p : ℚ × ℚ, (recentSince amounts cutoff).count p =
      if cutoff < p.1 then amounts.count p else 0) ∧
    ((∀ p ∈ amounts, p.1 ≤ cutoff) → recentSince amounts cutoff = []) ∧
    ((∀ p ∈ amounts, cutoff < p.1) → recentSince amounts cutoff = amounts) := by
  refine ⟨List.filter_sublist _, ?_, ?_, ?_⟩
  · intro p
    by_cases h : cutoff < p.1
    · rw [if_pos h]
      exact List.count_filter (by simpa using h)
    · rw [if_neg h]
      rw [List.count_eq_zero]
      intro hmem
      exact h (by simpa using (List.mem_filter.mp hmem).2)
  · intro h
    exact List.filter_eq_nil_iff.mpr fun p hp => by simpa using not_lt.mpr (h p hp)
  · intro h
    exact List.filter_eq_self.mpr fun p hp => by simpa using h p hp

/-- Witness for C8 at concrete inputs: a future cutoff empties the window and
a past cutoff keeps the whole history. -/
theorem c8_recentSince_exact_witness :
    recentSince [((5:ℚ), (7:ℚ))] 10 = [] ∧
    recentSince [((5:ℚ), (7:ℚ))] 0 = [((5:ℚ), (7:ℚ))] :=
  ⟨(c8_recentSince_exact [((5:ℚ), (7:ℚ))] 10).2.2.1 (by norm_num),
   (c8_recentSince_exact [((5:ℚ), (7:ℚ))] 0).2.2.2 (by norm_num)⟩

/-- Counterexample to C2 as stated: with exactly 3 baseline samples (fewer
than 4) in the window, the detector still fires on a large event, because the
source guards on more than 3 window entries including the event itself. -/
theorem c2_counterexample :
    (windowValues [((1:ℚ), (1000:ℚ)), (2, 1000), (3, 1000)] (4 - liqWindow)).length = 3 ∧
    checkLiquidationSpike [((1:ℚ), (1000:ℚ)), (2, 1000), (3, 1000), (4, 100000)]
      4 100000 = true := by
  norm_num [windowValues, checkLiquidationSpike, listMean, liqWindow, spikeMult,
    List.filter]

/-- Claim C2 (amended): with fewer than 3 baseline samples — entries of the
trailing window other than the just-inserted event, i.e. fewer than 4 window
entries in total — the per-event spike detector emits no alert regardless of
the event's notional value. -/
theorem c2_min_baseline_no_alert (past : List (ℚ × ℚ)) (now t v : ℚ)
    (ht : now - liqWindow < t)
    (hbase : (windowValues past (now - liqWindow)).length < 3) :
    checkLiquidationSpike (past ++ [(t, v)]) now v = false := by
  have h2 := windowValues_append_event past (now - liqWindow) t v ht
  simp only [checkLiquidationSpike, h2, List.length_append, List.length_cons,
    List.length_nil]
  rw [if_neg (by omega)]

/-- Witness for the amended C2: one baseline sample, a huge event, no alert. -/
theorem c2_min_baseline_no_alert_witness :
    4 - liqWindow < (4:ℚ) ∧
    (windowValues [((1:ℚ), (1000:ℚ))] (4 - liqWindow)).length < 3 ∧
    checkLiquidationSpike ([((1:ℚ), (1000:ℚ))] ++ [(4, 1000000000)])
      4 1000000000 = false :=
  ⟨by norm_num [liqWindow],
   by norm_num [windowValues, liqWindow, List.filter],
   c2_min_baseline_no_alert [((1:ℚ), (1000:ℚ))] 4 4 1000000000
     (by norm_num [liqWindow])
     (by norm_num [windowValues, liqWindow, List.filter])⟩

/-- Counterexample to C5 as stated: with enough baseline samples all equal to
0, the baseline average is 0 and the event value 100 strictly exceeds 0 × 2.0,
yet the detector does not fire — the source additionally requires the baseline
average to be positive. -/
theorem c5_counterexample :
    3 < (windowValues [((1:ℚ), (0:ℚ)), (2, 0), (3, 0), (4, 0), (5, 100)]
          (5 - liqWindow)).length ∧
    listMean ((windowValues [((1:ℚ), (0:ℚ)), (2, 0), (3, 0), (4, 0), (5, 100)]
          (5 - liqWindow)).dropLast) * spikeMult < 100 ∧
    checkLiquidationSpike [((1:ℚ), (0:ℚ)), (2, 0), (3, 0), (4, 0), (5, 100)]
      5 100 = false := by
  norm_num [windowValues, checkLiquidationSpike, listMean, liqWindow, spikeMult,
    List.filter, List.dropLast]

/-- Claim C5 (amended): with more than 3 window entries, the per-event spike
alert fires iff the baseline average B (the mean of the window minus its last
entry) is positive AND the event value strictly exceeds B × 2.0; in particular
the boundary case V = B × 2.0 never fires. -/
theorem c5_spike_iff (amounts : List (ℚ × ℚ)) (now v : ℚ)
    (h : 3 < (windowValues amounts (now - liqWindow)).length) :
    (checkLiquidationSpike amounts now v = true ↔
      0 < listMean (windowValues amounts (now - liqWindow)).dropLast ∧
      listMean (windowValues amounts (now - liqWindow)).dropLast * spikeMult < v) ∧
    (v = listMean (windowValues amounts (now - liqWindow)).dropLast * spikeMult →
      checkLiquidationSpike amounts now v = false) := by
  have key : checkLiquidationSpike amounts now v = true ↔
      0 < listMean (windowValues amounts (now - liqWindow)).dropLast ∧
      listMean (windowValues amounts (now - liqWindow)).dropLast * spikeMult < v := by
    simp only [checkLiquidationSpike, if_pos h, Bool.and_eq_true, decide_eq_true_eq]
  refine ⟨key, fun hv => ?_⟩
  rcases Bool.eq_false_or_eq_true (checkLiquidationSpike amounts now v) with hb | hb
  · exact absurd (key.mp hb).2 (by rw [hv]; exact lt_irrefl _)
  · exact hb

/-- Witness for the amended C5: baseline mean 10, event 100 > 20, alert fires. -/
theorem c5_spike_iff_witness :
    checkLiquidationSpike [((1:ℚ), (10:ℚ)), (2, 10), (3, 10), (4, 100)] 4 100 = true :=
  ((c5_spike_iff [((1:ℚ), (10:ℚ)), (2, 10), (3, 10), (4, 100)] 4 100
      (by norm_num [windowValues, liqWindow, List.filter])).1).mpr
    ⟨by norm_num [windowValues, listMean, liqWindow, List.filter, List.dropLast],
     by norm_num [windowValues, listMean, liqWindow, spikeMult, List.filter,
       List.dropLast]⟩

/-- Factor 1 appends exactly one signal whose delta is its score contribution. -/
theorem fundingSignals_delta (f : ℚ) :
    ((fundingSignals f).map ScoreSignal.delta).sum = fundingDelta f := by
  unfold fundingSignals fundingDelta; split_ifs <;> simp

/-- Factor 2 appends exactly one signal whose delta is its score contribution. -/
theorem lsSignals_delta (r : ℚ) :
    ((lsSignals r).map ScoreSignal.delta).sum = lsDelta r := by
  unfold lsSignals lsDelta; split_ifs <;> simp

/-- Factor 3 appends exactly one signal whose delta is its score contribution. -/
theorem oiSignals_delta (c : ℚ) :
    ((oiSignals c).map ScoreSignal.delta).sum = oiDelta c := by
  unfold oiSignals oiDelta; split_ifs <;> simp

/-- Factor 4 appends exactly one signal whose delta is its score contribution. -/
theorem bookSignals_delta (d : ℚ) :
    ((bookSignals d).map ScoreSignal.delta).sum = bookDelta d := by
  unfold bookSignals bookDelta; split_ifs <;> simp

/-- Factor 5's appended deltas sum to its score contribution. -/
theorem volumeSignals_delta (v : ℚ) :
    ((volumeSignals v).map ScoreSignal.delta).sum = volumeDelta v := by
  unfold volumeSignals volumeDelta; split_ifs <;> simp

/-- Factor 6 appends exactly one signal whose delta is its score contribution. -/
theorem rsiSignals_delta (r : ℚ) :
    ((rsiSignals r).map ScoreSignal.delta).sum = rsiDelta r := by
  unfold rsiSignals rsiDelta; split_ifs <;> simp

/-- Factor 7 appends exactly one signal whose delta is its score contribution. -/
theorem priceSignals_delta (p : ℚ) :
    ((priceSignals p).map ScoreSignal.delta).sum = priceDelta p := by
  unfold priceSignals priceDelta; split_ifs <;> simp

/-- Factor 8's appended deltas sum to its score contribution. -/
theorem liqBuySignals_delta (s : LiqSummary) :
    ((liqBuySignals s).map ScoreSignal.delta).sum = liqBuyDelta s := by
  unfold liqBuySignals liqBuyDelta; split_ifs <;> simp

/-- Factor 9's appended deltas sum to its score contribution. -/
theorem liqSellSignals_delta (s : LiqSummary) :
    ((liqSellSignals s).map ScoreSignal.delta).sum = liqSellDelta s := by
  unfold liqSellSignals liqSellDelta; split_ifs <;> simp

/-- The total score is the sum of the nine per-factor contributions. -/
theorem runScore_eq_deltas (m : Metrics) (s : LiqSummary) :
    runScore m s = (factorDeltas m s).sum := by
  simp only [runScore, signalsList, factorDeltas, List.map_append, List.sum_append,
    fundingSignals_delta, lsSignals_delta, oiSignals_delta, bookSignals_delta,
    volumeSignals_delta, rsiSignals_delta, priceSignals_delta, liqBuySignals_delta,
    liqSellSignals_delta, List.sum_cons, List.sum_nil]
  ring

/-- Factor 1 always appends exactly one signal. -/
theorem fundingSignals_length (f : ℚ) : (fundingSignals f).length = 1 := by
  unfold fundingSignals; split_ifs <;> rfl

/-- Factor 2 always appends exactly one signal. -/
theorem lsSignals_length (r : ℚ) : (lsSignals r).length = 1 := by
  unfold lsSignals; split_ifs <;> rfl

/-- Factor 3 always appends exactly one signal. -/
theorem oiSignals_length (c : ℚ) : (oiSignals c).length = 1 := by
  unfold oiSignals; split_ifs <;> rfl

/-- Factor 4 always appends exactly one signal. -/
theorem bookSignals_length (d : ℚ) : (bookSignals d).length = 1 := by
  unfold bookSignals; split_ifs <;> rfl

/-- Factor 5 appends one signal on its two active branches and none otherwise. -/
theorem volumeSignals_length (v : ℚ) :
    (volumeSignals v).length = if v < volLow ∨ volHigh < v then 1 else 0 := by
  unfold volumeSignals
  by_cases h1 : v < volLow
  · simp [h1]
  · by_cases h2 : volHigh < v
    · simp [h1, h2]
    · simp [h1, h2]

/-- Factor 6 always appends exactly one signal. -/
theorem rsiSignals_length (r : ℚ) : (rsiSignals r).length = 1 := by
  unfold rsiSignals; split_ifs <;> rfl

/-- Factor 7 always appends exactly one signal. -/
theorem priceSignals_length (p : ℚ) : (priceSignals p).length = 1 := by
  unfold priceSignals; split_ifs <;> rfl

/-- Factor 8 appends one signal on its two active branches and none otherwise. -/
theorem liqBuySignals_length (s : LiqSummary) :
    (liqBuySignals s).length = if s.buySpike = true ∨ 0 < s.buyTotal then 1 else 0 := by
  unfold liqBuySignals
  by_cases h1 : s.buySpike = true
  · simp [h1]
  · by_cases h2 : 0 < s.buyTotal
    · simp [h1, h2]
    · simp [h1, h2]

/-- Factor 9 appends one signal on its two active branches and none otherwise. -/
theorem liqSellSignals_length (s : LiqSummary) :
    (liqSellSignals s).length = if s.sellSpike = true ∨ 0 < s.sellTotal then 1 else 0 := by
  unfold liqSellSignals
  by_cases h1 : s.sellSpike = true
  · simp [h1]
  · by_cases h2 : 0 < s.sellTotal
    · simp [h1, h2]
    · simp [h1, h2]

/-- Counterexample to C1 as stated: with all metrics neutral (volume ratio in
the middle band, no liquidation activity) the volume factor and both
liquidation factors append nothing, so the produced signal sequence has 6
entries, not 9. -/
theorem c1_counterexample :
    (signalsList ⟨0, 1, 0, 10000, 1, 50, 0⟩
        ⟨0, 0, 0, 0, false, false, 1, 1⟩).length = 6 ∧
    (signalsList ⟨0, 1, 0, 10000, 1, 50, 0⟩
        ⟨0, 0, 0, 0, false, false, 1, 1⟩).length ≠ 9 := by
  norm_num [signalsList, fundingSignals, lsSignals, oiSignals, bookSignals,
    volumeSignals, rsiSignals, priceSignals, liqBuySignals, liqSellSignals,
    fundingBear, fundingBull, lsShortHeavy, lsLongHeavy, bookThin, volLow, volHigh]

/-- Claim C1 (amended): factors 1,2,3,4,6,7 each append exactly one signal
every cycle, neutral branches included; the volume factor and the two
liquidation factors append one signal only on their active branches and none
on their neutral path, so the produced signal sequence has between 6 and 9
entries — exactly 6 plus one per active optional factor. -/
theorem c1_signal_count (m : Metrics) (s : LiqSummary) :
    (signalsList m s).length =
      6 + (if m.volRat < volLow ∨ volHigh < m.volRat then 1 else 0)
        + (if s.buySpike = true ∨ 0 < s.buyTotal then 1 else 0)
        + (if s.sellSpike = true ∨ 0 < s.sellTotal then 1 else 0) ∧
    6 ≤ (signalsList m s).length ∧ (signalsList m s).length ≤ 9 := by
  simp only [signalsList, List.length_append, fundingSignals_length, lsSignals_length,
    oiSignals_length, bookSignals_length, volumeSignals_length, rsiSignals_length,
    priceSignals_length, liqBuySignals_length, liqSellSignals_length]
  refine ⟨?_, ?_, ?_⟩ <;> split_ifs <;> omega

/-- Factor 1 contributes between -2 and 2 points. -/
theorem fundingDelta_bounds (f : ℚ) : -2 ≤ fundingDelta f ∧ fundingDelta f ≤ 2 := by
  unfold fundingDelta; split_ifs <;> omega

/-- Factor 2 contributes between -2 and 2 points. -/
theorem lsDelta_bounds (r : ℚ) : -2 ≤ lsDelta r ∧ lsDelta r ≤ 2 := by
  unfold lsDelta; split_ifs <;> omega

/-- Factor 3 contributes between -1 and 1 points. -/
theorem oiDelta_bounds (c : ℚ) : -1 ≤ oiDelta c ∧ oiDelta c ≤ 1 := by
  unfold oiDelta; split_ifs <;> omega

/-- Factor 4 contributes 0 or 1 points, never negative. -/
theorem bookDelta_bounds (d : ℚ) : 0 ≤ bookDelta d ∧ bookDelta d ≤ 1 := by
  unfold bookDelta; split_ifs <;> omega

/-- Factor 5 contributes 0 or 1 points, never negative. -/
theorem volumeDelta_bounds (v : ℚ) : 0 ≤ volumeDelta v ∧ volumeDelta v ≤ 1 := by
  unfold volumeDelta; split_ifs <;> omega

/-- Factor 6 contributes between -2 and 2 points. -/
theorem rsiDelta_bounds (r : ℚ) : -2 ≤ rsiDelta r ∧ rsiDelta r ≤ 2 := by
  unfold rsiDelta; split_ifs <;> omega

/-- Factor 7 contributes between -1 and 1 points. -/
theorem priceDelta_bounds (p : ℚ) : -1 ≤ priceDelta p ∧ priceDelta p ≤ 1 := by
  unfold priceDelta; split_ifs <;> omega

/-- Factor 8 contributes 0, 1 or 2 points, never negative. -/
theorem liqBuyDelta_bounds (s : LiqSummary) : 0 ≤ liqBuyDelta s ∧ liqBuyDelta s ≤ 2 := by
  unfold liqBuyDelta; split_ifs <;> omega

/-- Factor 9 contributes 0, -1 or -2 points, never positive. -/
theorem liqSellDelta_bounds (s : LiqSummary) : -2 ≤ liqSellDelta s ∧ liqSellDelta s ≤ 0 := by
  unfold liqSellDelta; split_ifs <;> omega

/-- Claim C9: every total score lies in [-10, 12], and both endpoints are
achieved — 12 by a fully bullish input, -10 by a fully bearish one (the
order-book and volume factors only ever add, the short-side liquidation factor
contributes 0..2 and the long-side one -2..0). -/
theorem c9_score_range :
    (∀ (m : Metrics) (s : LiqSummary), -10 ≤ runScore m s ∧ runScore m s ≤ 12) ∧
    runScore ⟨-8/10000, 85/100, -4, 3000, 4/10, 25, -4⟩
      ⟨50000, 0, 5, 0, true, false, 10000, 1⟩ = 12 ∧
    runScore ⟨1/1000, 12/10, 4, 10000, 1, 80, 4⟩
      ⟨0, 50000, 0, 5, false, true, 1, 10000⟩ = -10 := by
  refine ⟨fun m s => ?_, ?_, ?_⟩
  · rw [runScore_eq_deltas]
    obtain ⟨a1, a2⟩ := fundingDelta_bounds m.funding
    obtain ⟨b1, b2⟩ := lsDelta_bounds m.lsRat
    obtain ⟨d1, d2⟩ := oiDelta_bounds m.oiChangePct
    obtain ⟨e1, e2⟩ := bookDelta_bounds m.avgBookLiq
    obtain ⟨f1, f2⟩ := volumeDelta_bounds m.volRat
    obtain ⟨g1, g2⟩ := rsiDelta_bounds m.rsi
    obtain ⟨i1, i2⟩ := priceDelta_bounds m.priceChg1h
    obtain ⟨j1, j2⟩ := liqBuyDelta_bounds s
    obtain ⟨k1, k2⟩ := liqSellDelta_bounds s
    simp only [factorDeltas, List.sum_cons, List.sum_nil]
    omega
  · norm_num [runScore, signalsList, fundingSignals, lsSignals, oiSignals,
      bookSignals, volumeSignals, rsiSignals, priceSignals, liqBuySignals,
      liqSellSignals, fundingBear, fundingBull, lsShortHeavy, lsLongHeavy,
      bookThin, volLow, volHigh]
  · norm_num [runScore, signalsList, fundingSignals, lsSignals, oiSignals,
      bookSignals, volumeSignals, rsiSignals, priceSignals, liqBuySignals,
      liqSellSignals, fundingBear, fundingBull, lsShortHeavy, lsLongHeavy,
      bookThin, volLow, volHigh]

/-- The values with timestamp in the half-open band `(a, b]`: the part of the
baseline window that is older than the recent window. -/
def bandValues (amounts : List (ℚ × ℚ)) (a b : ℚ) : List ℚ :=
  (amounts.filter (fun tv => decide (a < tv.1) && decide (tv.1 ≤ b))).map Prod.snd

/-- Splitting a window sum at an intermediate cutoff: the values newer than the
older cutoff sum to the values newer than the recent cutoff plus the values in
the band between the two. -/
theorem windowValues_sum_split (l : List (ℚ × ℚ)) (a b : ℚ) (hab : a ≤ b) :
    (windowValues l a).sum = (windowValues l b).sum + (bandValues l a b).sum := by
  induction l with
  | nil => simp [windowValues, bandValues]
  | cons x xs ih =>
    by_cases hb : b < x.1
    · have ha : a < x.1 := lt_of_le_of_lt hab hb
      have hnb : ¬ x.1 ≤ b := not_le.mpr hb
      simp only [windowValues, bandValues, List.filter_cons] at ih ⊢
      simp only [ha, hb, hnb, decide_True, decide_False, Bool.and_false, if_true,
        if_false, List.map_cons, List.sum_cons]
      rw [ih]
      simp only [Bool.false_eq_true, if_false]
      ring
    · by_cases ha : a < x.1
      · have hxb : x.1 ≤ b := not_lt.mp hb
        simp only [windowValues, bandValues, List.filter_cons] at ih ⊢
        simp only [ha, hb, hxb, decide_True, decide_False, Bool.and_true, if_true,
          if_false, List.map_cons, List.sum_cons]
        rw [ih]
        simp only [Bool.false_eq_true, if_false]
        ring
      · have hnb2 : ¬ b < x.1 := hb
        simp only [windowValues, bandValues, List.filter_cons] at ih ⊢
        simp only [ha, hnb2, decide_False, Bool.false_and, if_false]
        exact ih

/-- Counterexample to C4 as stated: a single event of value 100 with age 0
(inside the recent spike window) contributes to the recent total AND raises
the baseline average from the empty sentinel 1 to 100/10 = 10 — the source
filters the baseline on `t > now - 600` only, which does not exclude the
current window. -/
theorem c4_counterexample :
    (getLiquidationSummary ⟨[], [((100:ℚ), (100:ℚ))], []⟩ 100).buyTotal = 100 ∧
    (getLiquidationSummary ⟨[], [((100:ℚ), (100:ℚ))], []⟩ 100).avgBuy = 10 ∧
    (getLiquidationSummary ⟨[], [], []⟩ 100).avgBuy = 1 := by
  norm_num [getLiquidationSummary, recentSince, windowValues, liqWindow, List.filter]

/-- Claim C4 (amended): the baseline average reported by the window summarizer
includes the current-window events: for either direction, when the 10× window
is nonempty, the average equals (recent-window total + total of the events
older than the recent window but inside the 10× window) / 10. -/
theorem c4_baseline_includes_recent (st : LiqState) (now : ℚ) :
    (windowValues st.buys (now - liqWindow * 10) ≠ [] →
      (getLiquidationSummary st now).avgBuy =
        ((getLiquidationSummary st now).buyTotal +
         (bandValues st.buys (now - liqWindow * 10) (now - liqWindow)).sum) / 10) ∧
    (windowValues st.sells (now - liqWindow * 10) ≠ [] →
      (getLiquidationSummary st now).avgSell =
        ((getLiquidationSummary st now).sellTotal +
         (bandValues st.sells (now - liqWindow * 10) (now - liqWindow)).sum) / 10) := by
  have hab : now - liqWindow * 10 ≤ now - liqWindow := by unfold liqWindow; linarith
  constructor
  · intro h
    have hsplit := windowValues_sum_split st.buys (now - liqWindow * 10)
      (now - liqWindow) hab
    simp only [getLiquidationSummary]
    rw [if_neg (by simpa [List.isEmpty_iff] using h)]
    have hrw : ((recentSince st.buys (now - liqWindow)).map Prod.snd).sum =
        (windowValues st.buys (now - liqWindow)).sum := rfl
    rw [hrw, ← hsplit]
  · intro h
    have hsplit := windowValues_sum_split st.sells (now - liqWindow * 10)
      (now - liqWindow) hab
    simp only [getLiquidationSummary]
    rw [if_neg (by simpa [List.isEmpty_iff] using h)]
    have hrw : ((recentSince st.sells (now - liqWindow)).map Prod.snd).sum =
        (windowValues st.sells (now - liqWindow)).sum := rfl
    rw [hrw, ← hsplit]

/-- Witness for the amended C4 at a concrete state: one fresh event of value
100, baseline average 10 = (100 + 0) / 10. -/
theorem c4_baseline_includes_recent_witness :
    (getLiquidationSummary ⟨[], [((100:ℚ), (100:ℚ))], []⟩ 100).avgBuy =
      ((getLiquidationSummary ⟨[], [((100:ℚ), (100:ℚ))], []⟩ 100).buyTotal +
       (bandValues [((100:ℚ), (100:ℚ))] (100 - liqWindow * 10) (100 - liqWindow)).sum) / 10 :=
  (c4_baseline_includes_recent ⟨[], [((100:ℚ), (100:ℚ))], []⟩ 100).1
    (by norm_num [windowValues, liqWindow, List.filter])

/-- An empty 10× baseline window forces an empty recent window: every entry
newer than `now - 60` is also newer than `now - 600`. -/
theorem recent_empty_of_baseline_empty (amounts : List (ℚ × ℚ)) (now : ℚ)
    (h : windowValues amounts (now - liqWindow * 10) = []) :
    amounts.filter (fun tv => decide (now - liqWindow < tv.1)) = [] := by
  have h0 : amounts.filter (fun tv => decide (now - liqWindow * 10 < tv.1)) = [] :=
    List.map_eq_nil_iff.mp h
  have hall := List.filter_eq_nil_iff.mp h0
  refine List.filter_eq_nil_iff.mpr fun tv htv => ?_
  have h1 := hall tv htv
  simp only [decide_eq_true_eq] at h1 ⊢
  intro hc
  have hlw : now - liqWindow * 10 ≤ now - liqWindow := by unfold liqWindow; linarith
  exact h1 (lt_of_le_of_lt hlw hc)

/-- Claim C6: for either direction, when the 10× baseline window holds no
events the summarizer reports the sentinel baseline average 1 and never flags
that direction as spiking (its recent window is then necessarily empty too, so
the recent total 0 cannot exceed 1 × 2.0). -/
theorem c6_empty_baseline_no_spike (st : LiqState) (now : ℚ) :
    (windowValues st.buys (now - liqWindow * 10) = [] →
      (getLiquidationSummary st now).avgBuy = 1 ∧
      (getLiquidationSummary st now).buySpike = false) ∧
    (windowValues st.sells (now - liqWindow * 10) = [] →
      (getLiquidationSummary st now).avgSell = 1 ∧
      (getLiquidationSummary st now).sellSpike = false) := by
  constructor
  · intro h
    have hrec := recent_empty_of_baseline_empty st.buys now h
    constructor
    · simp [getLiquidationSummary, h]
    · simp only [getLiquidationSummary, recentSince]
      simp only [hrec, h]
      simp only [List.isEmpty_nil, if_true, List.map_nil, List.sum_nil]
      simp only [decide_eq_false_iff_not]
      norm_num [spikeMult]
  · intro h
    have hrec := recent_empty_of_baseline_empty st.sells now h
    constructor
    · simp [getLiquidationSummary, h]
    · simp only [getLiquidationSummary, recentSince]
      simp only [hrec, h]
      simp only [List.isEmpty_nil, if_true, List.map_nil, List.sum_nil]
      simp only [decide_eq_false_iff_not]
      norm_num [spikeMult]

/-- Witness for C6 at the empty state: both directions get the sentinel
average 1 and no spike flag. -/
theorem c6_empty_baseline_no_spike_witness :
    (getLiquidationSummary ⟨[], [], []⟩ 0).avgBuy = 1 ∧
    (getLiquidationSummary ⟨[], [], []⟩ 0).buySpike = false ∧
    (getLiquidationSummary ⟨[], [], []⟩ 0).avgSell = 1 ∧
    (getLiquidationSummary ⟨[], [], []⟩ 0).sellSpike = false := by
  have h := c6_empty_baseline_no_spike ⟨[], [], []⟩ 0
  obtain ⟨hb1, hb2⟩ := h.1 rfl
  obtain ⟨hs1, hs2⟩ := h.2 rfl
  exact ⟨hb1, hb2, hs1, hs2⟩

/-- `deque.append` under a capacity, as one expression: the new element goes on
the right and the left is trimmed to the capacity. -/
theorem dequePush_eq_drop (c : Nat) (q : List α) (x : α) :
    dequePush c q x = (q ++ [x]).drop (q.length + 1 - c) := by
  unfold dequePush
  by_cases hl : q.length + 1 ≤ c
  · rw [if_pos (by simpa using hl)]
    rw [Nat.sub_eq_zero_of_le hl, List.drop_zero]
  · rw [if_neg (by simpa using hl)]
    congr 1
    simp

/-- Folding capped pushes from a start below capacity: the stored list is the
suffix of the combined stream that fits the capacity. -/
theorem foldl_dequePush (c : Nat) (xs : List α) : ∀ q : List α, q.length ≤ c →
    xs.foldl (dequePush c) q = (q ++ xs).drop (q.length + xs.length - c) := by
  induction xs with
  | nil =>
    intro q hq
    simp [Nat.sub_eq_zero_of_le hq]
  | cons x t ih =>
    intro q hq
    rw [List.foldl_cons, dequePush_eq_drop]
    have h1 : ((q ++ [x]).drop (q.length + 1 - c)).length ≤ c := by
      simp only [List.length_drop, List.length_append, List.length_cons, List.length_nil]
      omega
    rw [ih _ h1]
    have hd : q.length + 1 - c ≤ (q ++ [x]).length := by simp
    rw [← List.drop_append_of_le_length hd, List.drop_drop]
    rw [show q ++ x :: t = (q ++ [x]) ++ t from by simp]
    congr 1
    simp only [List.length_drop, List.length_append, List.length_cons, List.length_nil]
    omega

/-- Running `on_liquidation_message` over a whole stream of timestamped feed
orders, in arrival order. -/
def ingestAll (st : LiqState) (msgs : List (ℚ × FeedOrder)) : LiqState :=
  msgs.foldl (fun s m => ingest s m.1 m.2) st

/-- The `(timestamp, notional value)` pair a message contributes to its
direction's deque. -/
def pairOf (m : ℚ × FeedOrder) : ℚ × ℚ := (m.1, (decodeEvent m.1 m.2).usdVal)

/-- Whether `on_liquidation_message` routes a message to the buy deque: its
decoded side equals `"BUY"`. -/
def isBuyMsg (m : ℚ × FeedOrder) : Bool :=
  decide ((decodeEvent m.1 m.2).side = "BUY")

/-- Ingesting an arbitrary mixed stream: each direction's deque is the capped
fold of exactly that direction's subsequence of the stream, in arrival
order. -/
theorem ingestAll_split (msgs : List (ℚ × FeedOrder)) : ∀ st : LiqState,
    (ingestAll st msgs).buys =
      ((msgs.filter isBuyMsg).map pairOf).foldl (dequePush 200) st.buys ∧
    (ingestAll st msgs).sells =
      ((msgs.filter fun m => ! isBuyMsg m).map pairOf).foldl (dequePush 200) st.sells := by
  induction msgs with
  | nil => intro st; exact ⟨rfl, rfl⟩
  | cons m t ih =>
    intro st
    obtain ⟨ihb, ihs⟩ := ih (ingest st m.1 m.2)
    by_cases hm : isBuyMsg m = true
    · have hg : m.2.S.getD "" = "BUY" := by simpa [isBuyMsg, decodeEvent] using hm
      have hbuys : (ingest st m.1 m.2).buys = dequePush 200 st.buys (pairOf m) := by
        simp [ingest, pairOf, decodeEvent, hg]
      have hsells : (ingest st m.1 m.2).sells = st.sells := by
        simp [ingest, decodeEvent, hg]
      constructor
      · show (ingestAll (ingest st m.1 m.2) t).buys = _
        rw [ihb, hbuys]
        simp [List.filter_cons, hm]
      · show (ingestAll (ingest st m.1 m.2) t).sells = _
        rw [ihs, hsells]
        simp [List.filter_cons, hm]
    · have hmf : isBuyMsg m = false := by simpa using hm
      have hg : ¬ m.2.S.getD "" = "BUY" := by simpa [isBuyMsg, decodeEvent] using hm
      have hbuys : (ingest st m.1 m.2).buys = st.buys := by
        simp [ingest, decodeEvent, hg]
      have hsells : (ingest st m.1 m.2).sells = dequePush 200 st.sells (pairOf m) := by
        simp [ingest, pairOf, decodeEvent, hg]
      constructor
      · show (ingestAll (ingest st m.1 m.2) t).buys = _
        rw [ihb, hbuys]
        simp [List.filter_cons, hmf]
      · show (ingestAll (ingest st m.1 m.2) t).sells = _
        rw [ihs, hsells]
        simp [List.filter_cons, hmf]

/-- Claim C7: for every ingested stream (sides mixed arbitrarily) and either
direction, when the stream carries more events of that direction than the
direction's capacity 200, the stored sequence after ingesting from empty is
exactly the most recent 200 of that direction's `(timestamp, notional)` pairs,
in their original order — FIFO eviction. -/
theorem c7_fifo_eviction (msgs : List (ℚ × FeedOrder)) :
    (200 < (msgs.filter isBuyMsg).length →
      (ingestAll ⟨[], [], []⟩ msgs).buys =
        ((msgs.filter isBuyMsg).map pairOf).drop ((msgs.filter isBuyMsg).length - 200) ∧
      (ingestAll ⟨[], [], []⟩ msgs).buys.length = 200) ∧
    (200 < (msgs.filter fun m => ! isBuyMsg m).length →
      (ingestAll ⟨[], [], []⟩ msgs).sells =
        ((msgs.filter fun m => ! isBuyMsg m).map pairOf).drop
          ((msgs.filter fun m => ! isBuyMsg m).length - 200) ∧
      (ingestAll ⟨[], [], []⟩ msgs).sells.length = 200) := by
  obtain ⟨hb, hs⟩ := ingestAll_split msgs ⟨[], [], []⟩
  constructor
  · intro hlen
    have h2 := foldl_dequePush 200 ((msgs.filter isBuyMsg).map pairOf) [] (by simp)
    simp only [List.length_nil, List.nil_append, Nat.zero_add, List.length_map] at h2
    refine ⟨by rw [hb, h2], ?_⟩
    rw [hb, h2]
    simp only [List.length_drop, List.length_map]
    omega
  · intro hlen
    have h2 := foldl_dequePush 200 ((msgs.filter fun m => ! isBuyMsg m).map pairOf) []
      (by simp)
    simp only [List.length_nil, List.nil_append, Nat.zero_add, List.length_map] at h2
    refine ⟨by rw [hs, h2], ?_⟩
    rw [hs, h2]
    simp only [List.length_drop, List.length_map]
    omega

/-- A concrete mixed stream: one `"SELL"` message followed by 201 `"BUY"`
messages. -/
def c7Msgs : List (ℚ × FeedOrder) :=
  ((0 : ℚ), ⟨some "SELL", some 2, some 3⟩) ::
    (List.range 201).map fun (i : ℕ) => ((i : ℚ) + 1, ⟨some "BUY", some 1, some 1⟩)

/-- Witness for C7: the mixed stream carries 201 buy-side events, and ingesting
it keeps exactly the latest 200 of them. -/
theorem c7_fifo_eviction_witness :
    200 < (c7Msgs.filter isBuyMsg).length ∧
    ((ingestAll ⟨[], [], []⟩ c7Msgs).buys =
      ((c7Msgs.filter isBuyMsg).map pairOf).drop ((c7Msgs.filter isBuyMsg).length - 200) ∧
     (ingestAll ⟨[], [], []⟩ c7Msgs).buys.length = 200) := by
  have h1 : c7Msgs.filter isBuyMsg =
      (List.range 201).map
        (fun (i : ℕ) => ((i : ℚ) + 1, (⟨some "BUY", some 1, some 1⟩ : FeedOrder))) := by
    simp only [c7Msgs, List.filter_cons]
    rw [if_neg (by simp [isBuyMsg, decodeEvent])]
    refine List.filter_eq_self.mpr ?_
    intro a ha
    simp only [List.mem_map] at ha
    obtain ⟨i, _, rfl⟩ := ha
    simp [isBuyMsg, decodeEvent]
  have hlen : 200 < (c7Msgs.filter isBuyMsg).length := by
    rw [h1]
    simp only [List.length_map, List.length_range]
    norm_num
  exact ⟨hlen, (c7_fifo_eviction c7Msgs).1 hlen⟩

/-- Claim C10: ingestion classifies a decoded message by exact equality of its
side with `"BUY"`: a `"BUY"` side is appended to the short-liquidation (buy)
deque, any other side — a missing one decoding to `""` included — to the
long-liquidation (sell) deque, and every decoded event lands in the combined
log, none dropped. -/
theorem c10_side_classification (st : LiqState) (now : ℚ) (o : FeedOrder) :
    (ingest st now o).log = dequePush 500 st.log (decodeEvent now o) ∧
    (o.S = some "BUY" →
      (ingest st now o).buys = dequePush 200 st.buys (now, (decodeEvent now o).usdVal) ∧
      (ingest st now o).sells = st.sells) ∧
    (o.S ≠ some "BUY" →
      (ingest st now o).buys = st.buys ∧
      (ingest st now o).sells = dequePush 200 st.sells (now, (decodeEvent now o).usdVal)) := by
  refine ⟨rfl, fun h => ?_, fun h => ?_⟩
  · have hg : o.S.getD "" = "BUY" := by rw [h]; rfl
    constructor
    · simp [ingest, decodeEvent, hg]
    · simp [ingest, decodeEvent, hg]
  · have hg : ¬ o.S.getD "" = "BUY" := by
      cases hS : o.S with
      | none => simp only [Option.getD_none]; decide
      | some s =>
        rw [hS] at h
        simpa using h
    constructor
    · simp [ingest, decodeEvent, hg]
    · simp [ingest, decodeEvent, hg]

/-- Witness for C10: a message with no side field at all goes to the sell
deque with notional 0 × 0, and the buy deque is untouched. -/
theorem c10_side_classification_witness :
    (ingest ⟨[], [], []⟩ 5 ⟨none, none, none⟩).buys = [] ∧
    (ingest ⟨[], [], []⟩ 5 ⟨none, none, none⟩).sells =
      dequePush 200 [] (5, (decodeEvent 5 ⟨none, none, none⟩).usdVal) :=
  (c10_side_classification ⟨[], [], []⟩ 5 ⟨none, none, none⟩).2.2 (by simp)
